import Mathlib

/-!
Verification of the document-intelligence core of `MCP_Enhancement`:
the recursive ADF (Atlassian Document Format) text extractor
`parse_adf_text`, the duplicate-comment filter inside
`get_jira_ticket_details` (both in `agent_start.py`), and the
comment-capping report builder `get_issue_context` (`agents/jira_agent.py`).

The Python functions operate on deserialized JSON, so the embedding works
over a `Json` value type.  Python-specific behaviours are modelled
explicitly:
* truthiness (`if not adf_node`, `filter(None, ...)`, `x or y`) via
  `pyTruthy`;
* `str.join` raising `TypeError` when an element is not a string: the
  extractor returns `Option String`, `none` marking a raised exception;
* `str.strip()` via `pyStrip` (the ASCII whitespace characters; Python
  additionally strips some unicode whitespace, which no claim exercises);
* numbers are modelled as `Int` (no claim involves JSON floats).
-/

namespace MCPEnh

/-- A deserialized JSON value, the input shape of the Python helpers.
`obj` keeps fields in insertion order, matching Python dict iteration
order; actual Python dicts have pairwise-distinct keys. -/
inductive Json where
  | null : Json
  | bool (b : Bool) : Json
  | num (n : Int) : Json
  | str (s : String) : Json
  | arr (items : List Json) : Json
  | obj (fields : List (String × Json)) : Json

/-- Python truthiness of a JSON value (`bool(x)`): `None`, `False`, `0`,
`""`, `[]`, `{}` are falsy, everything else truthy. -/
def pyTruthy : Json → Bool
  | .null => false
  | .bool b => b
  | .num n => n != 0
  | .str s => s != ""
  | .arr items => !items.isEmpty
  | .obj fields => !fields.isEmpty

/-- `d.get(k)` on a dict: the value at key `k`, if present (first match;
real dicts have unique keys). -/
def jsonGet (fields : List (String × Json)) (k : String) : Option Json :=
  (fields.find? (fun p => p.1 == k)).map Prod.snd

/-- `sep.join(l)` on a list of strings. -/
def pyJoin (sep : String) : List String → String
  | [] => ""
  | [x] => x
  | x :: xs => x ++ sep ++ pyJoin sep xs

/-- All elements of a Python list must be strings for `str.join`;
a non-string element raises `TypeError` (modelled as `none`). -/
def strOnly : List Json → Option (List String)
  | [] => some []
  | .str s :: rest => (strOnly rest).map (s :: ·)
  | _ :: _ => none

/-- `" ".join(filter(None, texts))` where `texts` holds arbitrary Python
values: falsy elements are dropped, then all remaining elements must be
strings (else `TypeError`, i.e. `none`), and they are joined by one space. -/
def joinFiltered (texts : List Json) : Option String :=
  (strOnly (texts.filter pyTruthy)).map (pyJoin " ")

/-- `isinstance(value, (dict, list))`. -/
def isContainer : Json → Bool
  | .obj _ => true
  | .arr _ => true
  | _ => false

/-- `adf_node.get("type") == "text"`: the `type` field is present and is
exactly the string `"text"` (Python `==` between a string and any other
value is `False`). -/
def isTextTag : Option Json → Bool
  | some (.str s) => s == "text"
  | _ => false

mutual
/-- `parse_adf_text` from `agent_start.py` (lines 107-121):

```python
def parse_adf_text(adf_node):
    if not adf_node:
        return ""
    texts = []
    if isinstance(adf_node, dict):
        if adf_node.get("type") == "text":
            texts.append(adf_node.get("text", ""))
        for value in adf_node.values():
            if isinstance(value, (dict, list)):
                texts.append(parse_adf_text(value))
    elif isinstance(adf_node, list):
        for item in adf_node:
            texts.append(parse_adf_text(item))
    return " ".join(filter(None, texts))
```

`none` models a raised exception (the `TypeError` from `" ".join` when a
truthy non-string `text` field lands in `texts`). -/
def parse_adf_text (adf_node : Json) : Option String :=
  if !pyTruthy adf_node then some ""
  else
    match adf_node with
    | .obj fields =>
        let head : List Json :=
          if isTextTag (jsonGet fields "type")
          then [(jsonGet fields "text").getD (.str "")]
          else []
        match parseObjValues fields with
        | none => none
        | some rest => joinFiltered (head ++ rest.map Json.str)
    | .arr items =>
        match parseListItems items with
        | none => none
        | some rest => joinFiltered (rest.map Json.str)
    | _ => some ""

/-- The `for value in adf_node.values()` loop of `parse_adf_text`:
recurse into each dict- or list-valued field, in field order. -/
def parseObjValues : List (String × Json) → Option (List String)
  | [] => some []
  | (_, v) :: rest =>
      if isContainer v then
        match parse_adf_text v, parseObjValues rest with
        | some s, some ts => some (s :: ts)
        | _, _ => none
      else parseObjValues rest

/-- The `for item in adf_node` loop of `parse_adf_text`: recurse into
every element of a list node, in order. -/
def parseListItems : List Json → Option (List String)
  | [] => some []
  | v :: rest =>
      match parse_adf_text v, parseListItems rest with
      | some s, some ts => some (s :: ts)
      | _, _ => none
end

/-- The string content of a `text` field: the string when present and a
string, the empty string when absent (this mirrors `get("text", "")`;
non-string values are ruled out by `adfWF` below). -/
def textFieldStr : Option Json → String
  | some (.str s) => s
  | _ => ""

/-- A `text` field is absent or holds a string (the `TextNode{text: string}`
shape of the spec's structured-node trees). -/
def textFieldOk : Option Json → Bool
  | none => true
  | some (.str _) => true
  | some _ => false

mutual
/-- A structured-node tree: every node tagged `type == "text"` has its
`text` field absent or a string, recursively.  On such trees the Python
extractor cannot hit the `" ".join` `TypeError`. -/
def adfWF : Json → Bool
  | .obj fields =>
      (!isTextTag (jsonGet fields "type") || textFieldOk (jsonGet fields "text"))
        && adfWFFields fields
  | .arr items => adfWFItems items
  | _ => true

/-- `adfWF` over the values of an object's fields. -/
def adfWFFields : List (String × Json) → Bool
  | [] => true
  | (_, v) :: rest => adfWF v && adfWFFields rest

/-- `adfWF` over the items of an array. -/
def adfWFItems : List Json → Bool
  | [] => true
  | v :: rest => adfWF v && adfWFItems rest
end

mutual
/-- Stated from the spec: the `text` field of every node tagged as a text
leaf, in document order — the node's own text first, then the texts found
by recursing through every dict- or list-valued field (resp. every list
item) in iteration order. -/
def adfTexts : Json → List String
  | .obj fields =>
      (if isTextTag (jsonGet fields "type")
       then [textFieldStr (jsonGet fields "text")]
       else []) ++ adfTextsFields fields
  | .arr items => adfTextsItems items
  | _ => []

/-- `adfTexts` over the values of an object's fields (dict/list values
only, in field order). -/
def adfTextsFields : List (String × Json) → List String
  | [] => []
  | (_, v) :: rest =>
      (if isContainer v then adfTexts v else []) ++ adfTextsFields rest

/-- `adfTexts` over the items of an array, in order. -/
def adfTextsItems : List Json → List String
  | [] => []
  | v :: rest => adfTexts v ++ adfTextsItems rest
end

/-- Joining two already-joined fragments with a single space, skipping
empties: the binary shape of `" ".join(filter(None, ...))`. -/
def sjoin (a b : String) : String :=
  if a = "" then b else if b = "" then a else a ++ " " ++ b

/-- Folded `sjoin`: the space-join of a list of fragments with empty
fragments skipped. -/
def sfold : List String → String := List.foldr sjoin ""

/-- The whitespace characters `str.strip()` removes (ASCII part; Python
also strips some unicode whitespace, which no claim exercises).
`Char.ofNat 11` and `12` are vertical tab and form feed. -/
def pyWS (c : Char) : Bool :=
  c == ' ' || c == Char.ofNat 9 || c == Char.ofNat 10 || c == Char.ofNat 13
    || c == Char.ofNat 11 || c == Char.ofNat 12

/-- Strip leading and trailing `pyWS` characters from a character list. -/
def stripList (l : List Char) : List Char :=
  ((l.dropWhile pyWS).reverse.dropWhile pyWS).reverse

/-- Python `s.strip()`. -/
def pyStrip (s : String) : String := String.mk (stripList s.data)

mutual
/-- Python `repr()` of a deserialized JSON value, used by `str()` on
containers.  The quote/escape handling of `repr` on nested strings is not
modelled exactly (no claim evaluates it); scalars are exact. -/
def pyRepr : Json → String
  | .null => "None"
  | .bool true => "True"
  | .bool false => "False"
  | .num n => toString n
  | .str s => "\x27" ++ s ++ "\x27"
  | .arr items => "[" ++ pyJoin ", " (pyReprItems items) ++ "]"
  | .obj fields => "\x7b" ++ pyJoin ", " (pyReprFields fields) ++ "\x7d"

/-- `repr` of the items of a list. -/
def pyReprItems : List Json → List String
  | [] => []
  | v :: rest => pyRepr v :: pyReprItems rest

/-- `repr` of the key/value pairs of a dict. -/
def pyReprFields : List (String × Json) → List String
  | [] => []
  | (k, v) :: rest => ("\x27" ++ k ++ "\x27: " ++ pyRepr v) :: pyReprFields rest
end

/-- Python `str()` of a value, as the f-strings in the source render it:
a string is itself, everything else its `repr`-style rendering. -/
def pyStr : Json → String
  | .str s => s
  | v => pyRepr v

/-- One iteration of the comment loop of `get_jira_ticket_details`
(`agent_start.py` lines 142-150):

```python
author = c.get("author", {}).get("displayName", "Unknown")
body = parse_adf_text(c.get("body")).strip()
if body and body not in seen_comments:
    comments_text.append(f"- {author}: {body}")
    seen_comments.add(body)
```

The appended entry is kept as the `(str(author), body)` pair; rendering
the pair to the `"- author: body"` line is `fmtComment` below.  `none`
models a raised exception: `c` not a dict (`.get` on a non-dict raises
`AttributeError`), the `author` value not a dict, or `parse_adf_text`
raising. -/
def commentStep (c : Json) (acc : List (String × String)) (seen : List String) :
    Option (List (String × String) × List String) :=
  match c with
  | .obj cfs =>
      match (jsonGet cfs "author").getD (.obj []) with
      | .obj afs =>
          let author := pyStr ((jsonGet afs "displayName").getD (.str "Unknown"))
          match parse_adf_text ((jsonGet cfs "body").getD .null) with
          | none => none
          | some t =>
              let body := pyStrip t
              if body ≠ "" ∧ body ∉ seen
              then some (acc ++ [(author, body)], body :: seen)
              else some (acc, seen)
      | _ => none
  | _ => none

/-- The `for c in comments_data` loop: `acc` is `comments_text`, `seen` is
the `seen_comments` set (a list of the texts added so far, membership
standing for set membership). -/
def commentsLoop : List Json → List (String × String) → List String →
    Option (List (String × String) × List String)
  | [], acc, seen => some (acc, seen)
  | c :: rest, acc, seen =>
      match commentStep c acc seen with
      | none => none
      | some (acc', seen') => commentsLoop rest acc' seen'

/-- The deduplicating filter applied to a fetched comment list: the
`comments_text` entries produced by the loop, starting from an empty
accumulator and an empty `seen_comments` set (both created fresh on every
invocation, as in the source). -/
def processComments (cs : List Json) : Option (List (String × String)) :=
  (commentsLoop cs [] []).map Prod.fst

/-- `f"- {author}: {body}"`. -/
def fmtComment (e : String × String) : String := "- " ++ e.1 ++ ": " ++ e.2

/-- What `for c in comments_data` iterates over: a list yields its items;
an empty dict or empty string yields nothing (so the loop body never
runs); a nonempty dict or string yields keys/characters on which the loop
body's `.get` raises; other scalars are not iterable (`TypeError`). -/
def commentsDataIter : Json → Option (List Json)
  | .arr items => some items
  | .obj [] => some []
  | .str "" => some []
  | _ => none

/-- `discussion = "\n".join(comments_text) if comments_text else
"No comments found."` (line 153), with `comments_text` the formatted
entries. -/
def discussionOf (entries : List (String × String)) : String :=
  if entries.map fmtComment ≠ [] then pyJoin "\n" (entries.map fmtComment)
  else "No comments found."

/-- The assembled `full_context` f-string (lines 155-160). -/
def reportText (ticket_key : String) (summary : Json)
    (description discussion : String) : String :=
  "**Ticket:** " ++ ticket_key ++ "\n"
    ++ "**Summary:** " ++ pyStr summary ++ "\n"
    ++ "**Description:** " ++ description ++ "\n\n"
    ++ "**Discussion/Comments:**\n" ++ discussion

/-- Lines 138-161: read `comments` out of the `comment` field value `cv`
(default `{}`), run the dedup loop, and assemble the report.  `none`
models an exception (non-dict `comment` value, non-iterable `comments`
value, or a loop-body exception), caught by the enclosing handler. -/
def reportFromComments (ticket_key : String) (summary : Json)
    (description : String) (cv : Json) : Option String :=
  match cv with
  | .obj cfs =>
      match commentsDataIter ((jsonGet cfs "comments").getD (.arr [])) with
      | none => none
      | some comments_data =>
          match commentsLoop comments_data [] [] with
          | none => none
          | some (entries, _) =>
              some (reportText ticket_key summary description
                (discussionOf entries))
  | _ => none

/-- Lines 132-161 given the `fields` dict: summary (default
`"No Summary"`), description extraction with the `or "No Description"`
fallback, then the comment pipeline. -/
def reportOfFields (ticket_key : String) (ffs : List (String × Json)) :
    Option String :=
  match parse_adf_text ((jsonGet ffs "description").getD .null) with
  | none => none
  | some dtxt =>
      reportFromComments ticket_key
        ((jsonGet ffs "summary").getD (.str "No Summary"))
        (if dtxt ≠ "" then dtxt else "No Description")
        ((jsonGet ffs "comment").getD (.obj []))

/-- The body of the `try` block of `get_jira_ticket_details` after a
successful 200 fetch (`agent_start.py` lines 130-161), from the decoded
JSON `data` to the returned report string.  `none` models an exception
raised inside the block (caught by the enclosing handler). -/
def reportOfData (ticket_key : String) (data : Json) : Option String :=
  match data with
  | .obj dfs =>
      match (jsonGet dfs "fields").getD (.obj []) with
      | .obj ffs => reportOfFields ticket_key ffs
      | _ => none
  | _ => none

/-- An HTTP response as `requests.get` yields it: status code and decoded
JSON body. -/
structure HttpResp where
  status : Nat
  body : Json

/-- The outcome of one outbound `requests.get`: a response, or a raised
exception whose message is `msg`. -/
inductive FetchOutcome where
  | resp (r : HttpResp)
  | exn (msg : String)

/-- `get_jira_ticket_details` (`agent_start.py` lines 98-164). `fetch n`
is the outcome of the `(n+1)`-th outbound HTTP GET the call would make;
the code performs exactly one, so only `fetch 0` is ever consulted.
`exnMsg` stands for `str(e)` of an exception raised inside the `try`
block after a successful fetch (its text comes from the Python runtime
and is not modelled). -/
def get_jira_ticket_details (ticket_key : String) (jira_url : Option String)
    (fetch : Nat → FetchOutcome) (exnMsg : String) : String :=
  match jira_url with
  | none => "❌ Error: JIRA_URL not set."
  | some u =>
    if u = "" then "❌ Error: JIRA_URL not set."
    else
      match fetch 0 with
      | .exn msg => "❌ Exception reading Jira: " ++ msg
      | .resp r =>
          if r.status ≠ 200 then
            "❌ Error fetching ticket " ++ ticket_key ++ ": " ++ toString r.status
          else
            match reportOfData ticket_key r.body with
            | some s => s
            | none => "❌ Exception reading Jira: " ++ exnMsg

/-- The fields of a fetched issue that `get_issue_context`
(`agents/jira_agent.py` lines 121-148) reads, as the `jira` library
exposes them: plain strings, the assignee already resolved to its display
form (`"Unassigned"` when absent, mirroring the conditional in the
source), and the comments as `(author.displayName, body)` pairs. -/
structure IssueView where
  key : String
  summary : String
  status : String
  assignee : String
  description : String
  comments : List (String × String)

/-- `get_issue_context` from `agents/jira_agent.py`: keeps
`comments[-5:]` (the last five comments), renders each as
`f"- {author}: {body}"`, and interpolates the description unmodified. -/
def get_issue_context (issue : IssueView) : String :=
  let recent_comments := (issue.comments.drop (issue.comments.length - 5)).map
    (fun c => "- " ++ c.1 ++ ": " ++ c.2)
  let comment_text :=
    if recent_comments ≠ [] then pyJoin "\n" recent_comments
    else "No comments."
  "Ticket: " ++ issue.key ++ "\n"
    ++ "Summary: " ++ issue.summary ++ "\n"
    ++ "Status: " ++ issue.status ++ "\n"
    ++ "Assignee: " ++ issue.assignee ++ "\n"
    ++ "Description: " ++ issue.description ++ "\n"
    ++ "--- Recent Comments ---\n" ++ comment_text

/-- The `(author, text)` view of one comment entry, exactly the values
`commentStep` computes for it: `str` of
`c.get("author", {}).get("displayName", "Unknown")` and the stripped
extracted body text.  The fallback branches are unreachable for entries
satisfying `commentWF`. -/
def entryPair (c : Json) : String × String :=
  match c with
  | .obj cfs =>
      (pyStr (match (jsonGet cfs "author").getD (.obj []) with
              | .obj afs => (jsonGet afs "displayName").getD (.str "Unknown")
              | _ => .null),
       pyStrip ((parse_adf_text ((jsonGet cfs "body").getD .null)).getD ""))
  | _ => ("", "")

/-- A comment entry on which the loop body does not raise: a dict whose
`author` value (when present) is a dict and whose `body` extracts without
error. -/
def commentWF (c : Json) : Bool :=
  match c with
  | .obj cfs =>
      (match (jsonGet cfs "author").getD (.obj []) with
       | .obj _ => true
       | _ => false)
      && (parse_adf_text ((jsonGet cfs "body").getD .null)).isSome
  | _ => false

/-- Stated from the claim: keep, in input order, only the first entry
carrying each distinct nonempty text. -/
def dedupSpec : List (String × String) → List String → List (String × String)
  | [], _ => []
  | (a, t) :: rest, seen =>
      if t ≠ "" ∧ t ∉ seen then (a, t) :: dedupSpec rest (t :: seen)
      else dedupSpec rest seen

/-- An output entry re-fed as a comment entry: its author as the
`displayName` and its already-extracted text as a plain text-node body. -/
def toEntry (e : String × String) : Json :=
  .obj [("author", .obj [("displayName", .str e.1)]),
        ("body", .obj [("type", .str "text"), ("text", .str e.2)])]

/-- No two consecutive spaces anywhere in the character list. -/
def noDS : List Char → Bool
  | [] => true
  | [_] => true
  | a :: b :: rest => !(a == ' ' && b == ' ') && noDS (b :: rest)

/-- A fragment that cannot create a double space when joined with single
spaces: it neither starts nor ends with a space and contains no
double-space run itself. -/
def spaceClean (s : String) : Bool :=
  (s.data.head? != some ' ') && (s.data.getLast? != some ' ')
    && noDS s.data

/-- `small` occurs verbatim (uncut) inside `big`. -/
def strContains (big small : String) : Prop :=
  ∃ pre post, big = pre ++ small ++ post

/-- A sequence of independent invocations of the comment filter, one per
request, as concurrent or consecutive tool calls would make them. -/
def runSequential (inputs : List (List Json)) :
    List (Option (List (String × String))) :=
  inputs.map processComments

/-- A 400-character description, longer than any truncation limit the
spec mentions. -/
def bigDesc : String := String.mk (List.replicate 400 'a')

theorem data_ne_nil_of_ne_empty {s : String} (h : s ≠ "") :
    s.data ≠ [] := by
  intro hd
  apply h
  apply String.ext
  rw [hd]

theorem append_ne_empty_left {a b : String} (h : a ≠ "") : a ++ b ≠ "" := by
  intro he
  have hd : (a ++ b).data = [] := by rw [he]
  rw [String.data_append] at hd
  exact data_ne_nil_of_ne_empty h (List.append_eq_nil.mp hd).1

theorem sjoin_empty_left (b : String) : sjoin "" b = b := by simp [sjoin]

theorem sjoin_empty_right (a : String) : sjoin a "" = a := by
  by_cases h : a = "" <;> simp [sjoin, h]

theorem sjoin_eq_of_ne {a b : String} (ha : a ≠ "") (hb : b ≠ "") :
    sjoin a b = a ++ " " ++ b := by
  unfold sjoin
  rw [if_neg ha, if_neg hb]

theorem sjoin_ne_empty {a b : String} (ha : a ≠ "") : sjoin a b ≠ "" := by
  by_cases hb : b = ""
  · subst hb; rw [sjoin_empty_right]; exact ha
  · rw [sjoin_eq_of_ne ha hb]
    exact append_ne_empty_left (append_ne_empty_left ha)

theorem sjoin_assoc (a b c : String) :
    sjoin (sjoin a b) c = sjoin a (sjoin b c) := by
  by_cases ha : a = ""
  · subst ha; rw [sjoin_empty_left, sjoin_empty_left]
  · by_cases hb : b = ""
    · subst hb; rw [sjoin_empty_right, sjoin_empty_left]
    · by_cases hc : c = ""
      · subst hc; rw [sjoin_empty_right, sjoin_empty_right]
      · have hab : a ++ " " ++ b ≠ "" :=
          append_ne_empty_left (append_ne_empty_left ha)
        have hbc : b ++ " " ++ c ≠ "" :=
          append_ne_empty_left (append_ne_empty_left hb)
        rw [sjoin_eq_of_ne ha hb, sjoin_eq_of_ne hb hc,
          sjoin_eq_of_ne hab hc, sjoin_eq_of_ne ha hbc]
        simp [String.append_assoc]

theorem sfold_append (xs ys : List String) :
    sfold (xs ++ ys) = sjoin (sfold xs) (sfold ys) := by
  induction xs with
  | nil => simp [sfold, sjoin_empty_left]
  | cons x xs ih =>
      simp only [sfold, List.foldr_cons, List.cons_append] at *
      rw [ih, sjoin_assoc]

theorem pyJoin_ne_empty {l : List String} (h : ∀ s ∈ l, s ≠ "")
    (hl : l ≠ []) : pyJoin " " l ≠ "" := by
  match l with
  | [x] => exact h x (by simp)
  | x :: y :: rest =>
      show x ++ " " ++ pyJoin " " (y :: rest) ≠ ""
      exact append_ne_empty_left (append_ne_empty_left (h x (by simp)))

/-- `" ".join` of the nonempty fragments is the `sjoin`-fold of all
fragments. -/
theorem pyJoin_filter_eq_sfold (l : List String) :
    pyJoin " " (l.filter (fun s => s != "")) = sfold l := by
  induction l with
  | nil => rfl
  | cons x xs ih =>
      show pyJoin " " ((x :: xs).filter (fun s => s != ""))
        = sjoin x (sfold xs)
      by_cases hx : x = ""
      · subst hx
        rw [sjoin_empty_left, List.filter_cons_of_neg (by simp), ih]
      · have hne : (x != "") = true := by simpa using hx
        rw [List.filter_cons, if_pos hne]
        rcases hfil : xs.filter (fun s => s != "") with _ | ⟨y, ys⟩
        · have hz : sfold xs = "" := by rw [← ih, hfil]; rfl
          rw [hz, sjoin_empty_right]
          rfl
        · have hall : ∀ s ∈ y :: ys, s ≠ "" := by
            intro s hs
            rw [← hfil] at hs
            simpa using (List.mem_filter.mp hs).2
          have hjoin : pyJoin " " (y :: ys) ≠ "" :=
            pyJoin_ne_empty hall (by simp)
          have hsf : sfold xs ≠ "" := by rw [← ih, hfil]; exact hjoin
          rw [sjoin_eq_of_ne hx hsf, ← ih, hfil]
          rfl

theorem filter_map_str (l : List String) :
    (l.map Json.str).filter pyTruthy = (l.filter (fun s => s != "")).map Json.str := by
  induction l with
  | nil => rfl
  | cons x xs ih =>
      by_cases hx : (x != "") = true
      · simp only [List.map_cons, List.filter_cons,
          show pyTruthy (Json.str x) = (x != "") from rfl, hx]
        simp [ih]
      · have hx' : (x != "") = false := by simpa using hx
        simp only [List.map_cons, List.filter_cons,
          show pyTruthy (Json.str x) = (x != "") from rfl, hx']
        simpa using ih

theorem strOnly_map_str (l : List String) :
    strOnly (l.map Json.str) = some l := by
  induction l with
  | nil => rfl
  | cons x xs ih => simp [strOnly, ih]

/-- `" ".join(filter(None, texts))` on a list of strings never raises and
equals the empty-skipping space join. -/
theorem joinFiltered_strs (l : List String) :
    joinFiltered (l.map Json.str) = some (sfold l) := by
  rw [joinFiltered, filter_map_str, strOnly_map_str]
  simp [pyJoin_filter_eq_sfold]

theorem getD_text_eq {o : Option Json} (h : textFieldOk o = true) :
    o.getD (.str "") = .str (textFieldStr o) := by
  match o with
  | none => rfl
  | some (.str s) => rfl
  | some .null | some (.bool _) | some (.num _) | some (.arr _)
  | some (.obj _) => simp [textFieldOk] at h

mutual
/-- On well-formed trees the extractor succeeds and returns the
`sjoin`-fold (single-space join, empties skipped) of the document-order
text-leaf values. -/
theorem parse_flatten : ∀ t : Json, adfWF t = true →
    parse_adf_text t = some (sfold (adfTexts t))
  | .null, _ => rfl
  | .bool b, _ => by cases b <;> rfl
  | .num n, _ => by
      by_cases h : n = 0 <;>
        simp [parse_adf_text, adfTexts, pyTruthy, h, sfold]
  | .str s, _ => by
      by_cases h : s = "" <;>
        simp [parse_adf_text, adfTexts, pyTruthy, h, sfold]
  | .arr items, h => by
      obtain ⟨rs, hrs, hfold⟩ :=
        parse_flatten_items items (by simpa [adfWF] using h)
      match items with
      | [] => rfl
      | i :: is =>
          rw [show adfTexts (.arr (i :: is)) = adfTextsItems (i :: is) from rfl,
            ← hfold]
          simp only [parse_adf_text, pyTruthy, hrs]
          simpa using joinFiltered_strs rs
  | .obj fields, h => by
      have hWF : adfWFFields fields = true := by
        have := h
        simp [adfWF, Bool.and_eq_true] at this
        exact this.2
      obtain ⟨rs, hrs, hfold⟩ := parse_flatten_fields fields hWF
      match fields with
      | [] => rfl
      | f :: fs =>
          have htex : (!isTextTag (jsonGet (f :: fs) "type")
              || textFieldOk (jsonGet (f :: fs) "text")) = true := by
            have := h
            simp only [adfWF, Bool.and_eq_true] at this
            exact this.1
          by_cases htag : isTextTag (jsonGet (f :: fs) "type") = true
          · have hok : textFieldOk (jsonGet (f :: fs) "text") = true := by
              rw [htag] at htex
              simpa using htex
            have hj := joinFiltered_strs
              (textFieldStr (jsonGet (f :: fs) "text") :: rs)
            simp only [List.map_cons] at hj
            have hstep : sfold (textFieldStr (jsonGet (f :: fs) "text") :: rs)
                = sfold (textFieldStr (jsonGet (f :: fs) "text")
                    :: adfTextsFields (f :: fs)) := by
              show sjoin _ (sfold rs) = sjoin _ (sfold (adfTextsFields (f :: fs)))
              rw [hfold]
            simp only [parse_adf_text, pyTruthy, adfTexts, htag,
              getD_text_eq hok, hrs]
            simpa [hstep] using hj
          · have htag' : isTextTag (jsonGet (f :: fs) "type") = false := by
              simpa using htag
            simp only [parse_adf_text, pyTruthy, adfTexts, htag', hrs]
            simpa [hfold] using joinFiltered_strs rs

/-- The recursive results over an object's fields succeed on a well-formed
tree, with the same skip-empties join as the flat texts of those fields. -/
theorem parse_flatten_fields : ∀ fs : List (String × Json),
    adfWFFields fs = true →
    ∃ rs, parseObjValues fs = some rs
      ∧ sfold rs = sfold (adfTextsFields fs)
  | [], _ => ⟨[], rfl, rfl⟩
  | (k, v) :: rest, h => by
      have hv : adfWF v = true := by
        simp only [adfWFFields, Bool.and_eq_true] at h
        exact h.1
      have hrest : adfWFFields rest = true := by
        simp only [adfWFFields, Bool.and_eq_true] at h
        exact h.2
      obtain ⟨rs, hrs, hfold⟩ := parse_flatten_fields rest hrest
      by_cases hc : isContainer v = true
      · refine ⟨sfold (adfTexts v) :: rs, ?_, ?_⟩
        · simp only [parseObjValues, hc, parse_flatten v hv, hrs]
          simp
        · simp only [adfTextsFields, hc, sfold_append]
          show sjoin (sfold (adfTexts v)) (sfold rs) = _
          rw [hfold]
          simp [sfold_append]
      · have hc' : isContainer v = false := by simpa using hc
        refine ⟨rs, ?_, ?_⟩
        · simp only [parseObjValues, hc']
          simpa using hrs
        · simp only [adfTextsFields, hc', hfold]
          simp

/-- The recursive results over an array's items succeed on a well-formed
tree, with the same skip-empties join as the flat texts of those items. -/
theorem parse_flatten_items : ∀ items : List Json,
    adfWFItems items = true →
    ∃ rs, parseListItems items = some rs
      ∧ sfold rs = sfold (adfTextsItems items)
  | [], _ => ⟨[], rfl, rfl⟩
  | v :: rest, h => by
      have hv : adfWF v = true := by
        simp only [adfWFItems, Bool.and_eq_true] at h
        exact h.1
      have hrest : adfWFItems rest = true := by
        simp only [adfWFItems, Bool.and_eq_true] at h
        exact h.2
      obtain ⟨rs, hrs, hfold⟩ := parse_flatten_items rest hrest
      refine ⟨sfold (adfTexts v) :: rs, ?_, ?_⟩
      · simp only [parseListItems, parse_flatten v hv, hrs]
      · rw [show adfTextsItems (v :: rest)
            = adfTexts v ++ adfTextsItems rest from rfl, sfold_append]
        show sjoin (sfold (adfTexts v)) (sfold rs)
          = sjoin (sfold (adfTexts v)) (sfold (adfTextsItems rest))
        rw [hfold]
end

theorem commentStep_eq_of_WF {c : Json} (h : commentWF c = true)
    (acc : List (String × String)) (seen : List String) :
    commentStep c acc seen =
      some (if (entryPair c).2 ≠ "" ∧ (entryPair c).2 ∉ seen
            then (acc ++ [entryPair c], (entryPair c).2 :: seen)
            else (acc, seen)) := by
  match c with
  | .null | .bool _ | .num _ | .str _ | .arr _ => simp [commentWF] at h
  | .obj cfs =>
      simp only [commentWF, Bool.and_eq_true] at h
      obtain ⟨ha, hp⟩ := h
      match hau : (jsonGet cfs "author").getD (.obj []) with
      | .null | .bool _ | .num _ | .str _ | .arr _ => rw [hau] at ha; simp at ha
      | .obj afs =>
          match hpar : parse_adf_text ((jsonGet cfs "body").getD .null) with
          | none => rw [hpar] at hp; simp at hp
          | some t =>
              simp only [commentStep, hau, hpar, entryPair, Option.getD_some]
              by_cases hkeep : pyStrip t ≠ "" ∧ pyStrip t ∉ seen
              · rw [if_pos hkeep, if_pos hkeep]
              · rw [if_neg hkeep, if_neg hkeep]

theorem commentStep_some_WF {c : Json} {acc seen x}
    (h : commentStep c acc seen = some x) : commentWF c = true := by
  match c with
  | .null | .bool _ | .num _ | .str _ | .arr _ => simp [commentStep] at h
  | .obj cfs =>
      simp only [commentWF, Bool.and_eq_true]
      constructor
      · match hau : (jsonGet cfs "author").getD (.obj []) with
        | .obj afs => rfl
        | .null | .bool _ | .num _ | .str _ | .arr _ =>
            rw [commentStep, hau] at h; simp at h
      · match hau : (jsonGet cfs "author").getD (.obj []) with
        | .null | .bool _ | .num _ | .str _ | .arr _ =>
            rw [commentStep, hau] at h; simp at h
        | .obj afs =>
            match hpar : parse_adf_text ((jsonGet cfs "body").getD .null) with
            | some t => simp [hpar]
            | none => rw [commentStep, hau, hpar] at h; simp at h

theorem dedupSpec_cons (a t : String) (rest : List (String × String))
    (seen : List String) :
    dedupSpec ((a, t) :: rest) seen
      = if t ≠ "" ∧ t ∉ seen then (a, t) :: dedupSpec rest (t :: seen)
        else dedupSpec rest seen := rfl

theorem commentsLoop_eq : ∀ (cs : List Json) (acc : List (String × String))
    (seen : List String), cs.all commentWF = true →
    ∃ seen', commentsLoop cs acc seen
      = some (acc ++ dedupSpec (cs.map entryPair) seen, seen')
  | [], acc, seen, _ => ⟨seen, by simp [commentsLoop, dedupSpec]⟩
  | c :: rest, acc, seen, h => by
      have hc : commentWF c = true := by
        simp only [List.all_cons, Bool.and_eq_true] at h
        exact h.1
      have hrest : rest.all commentWF = true := by
        simp only [List.all_cons, Bool.and_eq_true] at h
        exact h.2
      have hL : commentsLoop (c :: rest) acc seen
          = (match commentStep c acc seen with
             | none => none
             | some (acc', seen') => commentsLoop rest acc' seen') := rfl
      rcases hE : entryPair c with ⟨a, t⟩
      by_cases hkeep : t ≠ "" ∧ t ∉ seen
      · obtain ⟨seen', hs⟩ :=
          commentsLoop_eq rest (acc ++ [(a, t)]) (t :: seen) hrest
        refine ⟨seen', ?_⟩
        rw [hL, commentStep_eq_of_WF hc, hE, if_pos hkeep]
        show commentsLoop rest (acc ++ [(a, t)]) (t :: seen) = _
        rw [hs, List.map_cons, hE, dedupSpec_cons, if_pos hkeep]
        simp
      · obtain ⟨seen', hs⟩ := commentsLoop_eq rest acc seen hrest
        refine ⟨seen', ?_⟩
        rw [hL, commentStep_eq_of_WF hc, hE, if_neg hkeep]
        show commentsLoop rest acc seen = _
        rw [hs, List.map_cons, hE, dedupSpec_cons, if_neg hkeep]

theorem commentsLoop_some_WF : ∀ (cs : List Json) (acc : List (String × String))
    (seen : List String) (r : List (String × String) × List String),
    commentsLoop cs acc seen = some r → cs.all commentWF = true
  | [], _, _, _, _ => rfl
  | c :: rest, acc, seen, r, h => by
      rw [show commentsLoop (c :: rest) acc seen
          = (match commentStep c acc seen with
             | none => none
             | some (acc', seen') => commentsLoop rest acc' seen') from rfl] at h
      match hstep : commentStep c acc seen with
      | none => rw [hstep] at h; simp at h
      | some (acc', seen') =>
          rw [hstep] at h
          simp only [List.all_cons, Bool.and_eq_true]
          exact ⟨commentStep_some_WF hstep,
            commentsLoop_some_WF rest acc' seen' r h⟩

/-- On well-formed entries the comment filter computes exactly the
claim-side first-occurrence dedup of the per-entry `(author, text)`
pairs. -/
theorem processComments_eq {cs : List Json} (h : cs.all commentWF = true) :
    processComments cs = some (dedupSpec (cs.map entryPair) []) := by
  obtain ⟨seen', hs⟩ := commentsLoop_eq cs [] [] h
  rw [processComments, hs]
  simp

theorem dedupSpec_sublist : ∀ (l : List (String × String)) (seen : List String),
    (dedupSpec l seen).Sublist l
  | [], _ => List.Sublist.refl []
  | (a, t) :: rest, seen => by
      by_cases hkeep : t ≠ "" ∧ t ∉ seen
      · rw [show dedupSpec ((a, t) :: rest) seen
            = if t ≠ "" ∧ t ∉ seen
              then (a, t) :: dedupSpec rest (t :: seen)
              else dedupSpec rest seen from rfl, if_pos hkeep]
        exact List.Sublist.cons₂ _ (dedupSpec_sublist rest (t :: seen))
      · rw [show dedupSpec ((a, t) :: rest) seen
            = if t ≠ "" ∧ t ∉ seen
              then (a, t) :: dedupSpec rest (t :: seen)
              else dedupSpec rest seen from rfl, if_neg hkeep]
        exact List.Sublist.cons _ (dedupSpec_sublist rest seen)

theorem dedupSpec_length (l : List (String × String)) (seen : List String) :
    (dedupSpec l seen).length ≤ l.length :=
  (dedupSpec_sublist l seen).length_le

theorem dedupSpec_mem : ∀ (l : List (String × String)) (seen : List String)
    (p : String × String), p ∈ dedupSpec l seen → p.2 ≠ "" ∧ p.2 ∉ seen
  | [], _, p, h => by simp [dedupSpec] at h
  | (a, t) :: rest, seen, p, h => by
      by_cases hkeep : t ≠ "" ∧ t ∉ seen
      · rw [show dedupSpec ((a, t) :: rest) seen
            = if t ≠ "" ∧ t ∉ seen
              then (a, t) :: dedupSpec rest (t :: seen)
              else dedupSpec rest seen from rfl, if_pos hkeep] at h
        rcases List.mem_cons.mp h with heq | hmem
        · subst heq; exact hkeep
        · have := dedupSpec_mem rest (t :: seen) p hmem
          exact ⟨this.1, fun hin => this.2 (List.mem_cons_of_mem _ hin)⟩
      · rw [show dedupSpec ((a, t) :: rest) seen
            = if t ≠ "" ∧ t ∉ seen
              then (a, t) :: dedupSpec rest (t :: seen)
              else dedupSpec rest seen from rfl, if_neg hkeep] at h
        exact dedupSpec_mem rest seen p h

theorem dedupSpec_nodup : ∀ (l : List (String × String)) (seen : List String),
    ((dedupSpec l seen).map Prod.snd).Nodup
  | [], _ => by simp [dedupSpec]
  | (a, t) :: rest, seen => by
      by_cases hkeep : t ≠ "" ∧ t ∉ seen
      · rw [show dedupSpec ((a, t) :: rest) seen
            = if t ≠ "" ∧ t ∉ seen
              then (a, t) :: dedupSpec rest (t :: seen)
              else dedupSpec rest seen from rfl, if_pos hkeep]
        rw [List.map_cons, List.nodup_cons]
        refine ⟨?_, dedupSpec_nodup rest (t :: seen)⟩
        intro hmem
        obtain ⟨p, hp, hps⟩ := List.mem_map.mp hmem
        have := (dedupSpec_mem rest (t :: seen) p hp).2
        exact this (by rw [hps]; exact List.mem_cons_self _ _)
      · rw [show dedupSpec ((a, t) :: rest) seen
            = if t ≠ "" ∧ t ∉ seen
              then (a, t) :: dedupSpec rest (t :: seen)
              else dedupSpec rest seen from rfl, if_neg hkeep]
        exact dedupSpec_nodup rest seen

/-- A list of pairwise-distinct, nonempty, unseen texts passes the dedup
unchanged. -/
theorem dedupSpec_fixed : ∀ (l : List (String × String)) (seen : List String),
    (∀ p ∈ l, p.2 ≠ "" ∧ p.2 ∉ seen) → ((l.map Prod.snd).Nodup) →
    dedupSpec l seen = l
  | [], _, _, _ => rfl
  | (a, t) :: rest, seen, hmem, hnd => by
      have hkeep : t ≠ "" ∧ t ∉ seen := hmem (a, t) (List.mem_cons_self _ _)
      rw [show dedupSpec ((a, t) :: rest) seen
          = if t ≠ "" ∧ t ∉ seen
            then (a, t) :: dedupSpec rest (t :: seen)
            else dedupSpec rest seen from rfl, if_pos hkeep]
      congr 1
      apply dedupSpec_fixed rest (t :: seen)
      · intro p hp
        have h1 := hmem p (List.mem_cons_of_mem _ hp)
        refine ⟨h1.1, ?_⟩
        intro hin
        rcases List.mem_cons.mp hin with heq | hseen
        · rw [List.map_cons, List.nodup_cons] at hnd
          apply hnd.1
          rw [← heq]
          exact List.mem_map.mpr ⟨p, hp, rfl⟩
        · exact h1.2 hseen
      · rw [List.map_cons, List.nodup_cons] at hnd
        exact hnd.2

theorem dropWhile_idem {α : Type} (p : α → Bool) (l : List α) :
    (l.dropWhile p).dropWhile p = l.dropWhile p := by
  induction l with
  | nil => rfl
  | cons x xs ih =>
      by_cases hx : p x = true
      · rw [List.dropWhile_cons_of_pos hx, ih]
      · rw [List.dropWhile_cons_of_neg hx, List.dropWhile_cons_of_neg hx]

theorem head?_dropWhile_false {α : Type} (p : α → Bool) :
    ∀ (l : List α) {x : α}, (l.dropWhile p).head? = some x → p x = false
  | [], x, h => by simp [List.dropWhile] at h
  | y :: ys, x, h => by
      by_cases hy : p y = true
      · rw [List.dropWhile_cons_of_pos hy] at h
        exact head?_dropWhile_false p ys h
      · rw [List.dropWhile_cons_of_neg hy] at h
        simp only [List.head?_cons, Option.some.injEq] at h
        subst h
        simpa using hy

theorem getLast?_dropWhile {α : Type} (p : α → Bool) :
    ∀ l : List α, l.dropWhile p ≠ [] →
      (l.dropWhile p).getLast? = l.getLast?
  | [], h => absurd rfl h
  | y :: ys, h => by
      by_cases hy : p y = true
      · rw [List.dropWhile_cons_of_pos hy] at h ⊢
        match ys with
        | [] => exact absurd rfl h
        | z :: zs =>
            rw [getLast?_dropWhile p (z :: zs) h, List.getLast?_cons_cons]
      · rw [List.dropWhile_cons_of_neg hy]

theorem dropWhile_eq_self_of_head? {α : Type} {p : α → Bool} {l : List α}
    (h : ∀ x, l.head? = some x → p x = false) : l.dropWhile p = l := by
  match l with
  | [] => rfl
  | x :: xs =>
      have := h x rfl
      exact List.dropWhile_cons_of_neg (by simp [this])

theorem stripList_idem (l : List Char) :
    stripList (stripList l) = stripList l := by
  have h1 : ((l.dropWhile pyWS).reverse.dropWhile pyWS).reverse.dropWhile pyWS
      = ((l.dropWhile pyWS).reverse.dropWhile pyWS).reverse := by
    apply dropWhile_eq_self_of_head?
    intro x hx
    rw [List.head?_reverse] at hx
    have hMne : (l.dropWhile pyWS).reverse.dropWhile pyWS ≠ [] := by
      intro h0
      rw [h0] at hx
      simp at hx
    rw [getLast?_dropWhile pyWS (l.dropWhile pyWS).reverse hMne,
      List.getLast?_reverse] at hx
    exact head?_dropWhile_false pyWS l hx
  show ((((((l.dropWhile pyWS).reverse.dropWhile pyWS).reverse).dropWhile
      pyWS).reverse).dropWhile pyWS).reverse = stripList l
  rw [h1, List.reverse_reverse, dropWhile_idem]
  rfl

theorem pyStrip_idem (s : String) : pyStrip (pyStrip s) = pyStrip s := by
  show String.mk (stripList (String.mk (stripList s.data)).data) = _
  rw [show (String.mk (stripList s.data)).data = stripList s.data from rfl,
    stripList_idem]
  rfl

/-- Extracting a plain text node returns its text verbatim. -/
theorem parse_textNode (t : String) :
    parse_adf_text (.obj [("type", .str "text"), ("text", .str t)])
      = some t := by
  rw [parse_flatten (.obj [("type", .str "text"), ("text", .str t)]) rfl]
  rw [show adfTexts (.obj [("type", .str "text"), ("text", .str t)])
      = [t] from rfl]
  rw [show sfold [t] = sjoin t "" from rfl, sjoin_empty_right]

theorem commentWF_toEntry (e : String × String) :
    commentWF (toEntry e) = true := by
  rcases e with ⟨a, t⟩
  rw [show commentWF (toEntry (a, t))
      = ((match (jsonGet [("author", Json.obj [("displayName", Json.str a)]),
            ("body", Json.obj [("type", Json.str "text"), ("text", Json.str t)])]
            "author").getD (.obj []) with
          | .obj _ => true
          | _ => false)
        && (parse_adf_text ((jsonGet [("author",
            Json.obj [("displayName", Json.str a)]),
            ("body", Json.obj [("type", Json.str "text"),
              ("text", Json.str t)])] "body").getD .null)).isSome) from rfl]
  rw [show (jsonGet [("author", Json.obj [("displayName", Json.str a)]),
      ("body", Json.obj [("type", Json.str "text"), ("text", Json.str t)])]
      "author").getD (.obj []) = Json.obj [("displayName", Json.str a)]
      from rfl]
  rw [show (jsonGet [("author", Json.obj [("displayName", Json.str a)]),
      ("body", Json.obj [("type", Json.str "text"), ("text", Json.str t)])]
      "body").getD .null
      = Json.obj [("type", Json.str "text"), ("text", Json.str t)] from rfl]
  rw [parse_textNode]
  rfl

theorem entryPair_toEntry (a t : String) :
    entryPair (toEntry (a, t)) = (a, pyStrip t) := by
  rw [show entryPair (toEntry (a, t))
      = (pyStr (match (jsonGet [("author",
            Json.obj [("displayName", Json.str a)]),
            ("body", Json.obj [("type", Json.str "text"),
              ("text", Json.str t)])] "author").getD (.obj []) with
          | .obj afs => (jsonGet afs "displayName").getD (.str "Unknown")
          | _ => .null),
        pyStrip ((parse_adf_text ((jsonGet [("author",
            Json.obj [("displayName", Json.str a)]),
            ("body", Json.obj [("type", Json.str "text"),
              ("text", Json.str t)])] "body").getD .null)).getD ""))
      from rfl]
  rw [show (jsonGet [("author", Json.obj [("displayName", Json.str a)]),
      ("body", Json.obj [("type", Json.str "text"), ("text", Json.str t)])]
      "body").getD .null
      = Json.obj [("type", Json.str "text"), ("text", Json.str t)] from rfl]
  rw [parse_textNode]
  rfl

/-- Every text the loop can emit is a `pyStrip` fixed point. -/
theorem entryPair_snd_stripped (c : Json) :
    pyStrip (entryPair c).2 = (entryPair c).2 := by
  match c with
  | .obj cfs =>
      show pyStrip (pyStrip _) = pyStrip _
      exact pyStrip_idem _
  | .null | .bool _ | .num _ | .str _ | .arr _ => rfl

/-- Re-feeding the filter output through the filter changes nothing. -/
theorem processComments_rerun {cs : List Json} {out : List (String × String)}
    (h : processComments cs = some out) :
    processComments (out.map toEntry) = some out := by
  have hWF : cs.all commentWF = true := by
    rcases hL : commentsLoop cs [] [] with _ | r
    · rw [processComments, hL] at h
      simp at h
    · exact commentsLoop_some_WF cs [] [] r hL
  have hout : out = dedupSpec (cs.map entryPair) [] := by
    have heq := processComments_eq hWF
    rw [h] at heq
    exact Option.some_inj.mp heq
  have hmem : ∀ p ∈ out, p.2 ≠ "" := by
    intro p hp
    rw [hout] at hp
    exact (dedupSpec_mem _ _ p hp).1
  have hnd : (out.map Prod.snd).Nodup := by
    rw [hout]
    exact dedupSpec_nodup _ _
  have hstrip : ∀ p ∈ out, pyStrip p.2 = p.2 := by
    intro p hp
    rw [hout] at hp
    have hpm : p ∈ cs.map entryPair :=
      (dedupSpec_sublist (cs.map entryPair) []).subset hp
    obtain ⟨c, _, hce⟩ := List.mem_map.mp hpm
    rw [← hce]
    exact entryPair_snd_stripped c
  have hWF2 : (out.map toEntry).all commentWF = true := by
    rw [List.all_eq_true]
    intro x hx
    obtain ⟨e, _, hex⟩ := List.mem_map.mp hx
    rw [← hex]
    exact commentWF_toEntry e
  rw [processComments_eq hWF2]
  have hmapped : (out.map toEntry).map entryPair = out := by
    rw [List.map_map]
    have hid : ∀ e ∈ out, (entryPair ∘ toEntry) e = e := by
      intro e he
      rcases e with ⟨a, t⟩
      show entryPair (toEntry (a, t)) = (a, t)
      rw [entryPair_toEntry]
      have hst := hstrip (a, t) he
      simp only at hst
      rw [hst]
    rw [List.map_congr_left hid]
    simp
  rw [hmapped, dedupSpec_fixed out [] (fun p hp => ⟨hmem p hp, by simp⟩) hnd]

theorem noDS_cons {a : Char} {l : List Char} (hh : ∀ b, l.head? = some b →
    ¬(a = ' ' ∧ b = ' ')) (hl : noDS l = true) : noDS (a :: l) = true := by
  match l with
  | [] => rfl
  | b :: rest =>
      show (!(a == ' ' && b == ' ') && noDS (b :: rest)) = true
      rw [hl, Bool.and_true]
      have := hh b rfl
      by_cases ha : a = ' '
      · by_cases hb : b = ' '
        · exact absurd ⟨ha, hb⟩ this
        · simp [ha, hb]
      · simp [ha]

theorem noDS_append : ∀ (l1 l2 : List Char), noDS l1 = true → noDS l2 = true →
    ¬(l1.getLast? = some ' ' ∧ l2.head? = some ' ') → noDS (l1 ++ l2) = true
  | [], l2, _, h2, _ => h2
  | [a], l2, _, h2, hb => by
      apply noDS_cons _ h2
      intro b hbh
      intro ⟨ha', hb'⟩
      exact hb ⟨by simp [ha'], by rw [hbh, hb']⟩
  | a :: b :: rest, l2, h1, h2, hb => by
      have h1' : noDS (b :: rest) = true := by
        have := h1
        rw [show noDS (a :: b :: rest)
            = (!(a == ' ' && b == ' ') && noDS (b :: rest)) from rfl,
          Bool.and_eq_true] at this
        exact this.2
      have hba : (!(a == ' ' && b == ' ')) = true := by
        have := h1
        rw [show noDS (a :: b :: rest)
            = (!(a == ' ' && b == ' ') && noDS (b :: rest)) from rfl,
          Bool.and_eq_true] at this
        exact this.1
      have hrec : noDS ((b :: rest) ++ l2) = true := by
        apply noDS_append (b :: rest) l2 h1' h2
        intro ⟨hx, hy⟩
        exact hb ⟨by rw [List.getLast?_cons_cons]; exact hx, hy⟩
      show (!(a == ' ' && b == ' ') && noDS ((b :: rest) ++ l2)) = true
      rw [hba, hrec]
      rfl

theorem spaceClean_parts {s : String} (h : spaceClean s = true) :
    s.data.head? ≠ some ' ' ∧ s.data.getLast? ≠ some ' '
      ∧ noDS s.data = true := by
  rw [spaceClean, Bool.and_eq_true, Bool.and_eq_true] at h
  refine ⟨?_, ?_, h.2⟩
  · simpa using h.1.1
  · simpa using h.1.2

theorem spaceClean_append_sep {x j : String} (hx : spaceClean x = true)
    (hxne : x ≠ "") (hj : spaceClean j = true) (hjne : j ≠ "") :
    spaceClean (x ++ " " ++ j) = true := by
  obtain ⟨hxh, hxl, hxd⟩ := spaceClean_parts hx
  obtain ⟨hjh, hjl, hjd⟩ := spaceClean_parts hj
  have hxdata : x.data ≠ [] := data_ne_nil_of_ne_empty hxne
  have hjdata : j.data ≠ [] := data_ne_nil_of_ne_empty hjne
  have hdata : (x ++ " " ++ j).data = x.data ++ (' ' :: j.data) := by
    rw [String.data_append, String.data_append]
    simp
  have hsep : noDS (' ' :: j.data) = true := by
    apply noDS_cons _ hjd
    intro b hbh
    intro ⟨_, hb'⟩
    exact hjh (by rw [hbh, hb'])
  have hnods : noDS (x.data ++ (' ' :: j.data)) = true := by
    apply noDS_append _ _ hxd hsep
    intro ⟨hx', _⟩
    exact hxl hx'
  rw [spaceClean, hdata]
  have hh : (x.data ++ (' ' :: j.data)).head? = x.data.head? := by
    rw [List.head?_append]
    match hx0 : x.data with
    | [] => exact absurd hx0 hxdata
    | c :: cs => simp
  have hl : (x.data ++ (' ' :: j.data)).getLast? = j.data.getLast? := by
    rw [List.getLast?_append]
    match hj0 : j.data with
    | [] => exact absurd hj0 hjdata
    | c :: cs =>
        rw [show (' ' :: c :: cs).getLast? = (c :: cs).getLast?
            from List.getLast?_cons_cons]
        match hg : (c :: cs).getLast? with
        | some v => rfl
        | none =>
            rw [List.getLast?_eq_none_iff] at hg
            exact absurd hg (by simp)
  rw [hh, hl, hnods]
  have h1 : (x.data.head? != some ' ') = true := by simpa using hxh
  have h2 : (j.data.getLast? != some ' ') = true := by simpa using hjl
  rw [h1, h2]
  rfl

/-- The single-space join of clean nonempty fragments is clean: no
double-space run is introduced by the joining. -/
theorem spaceClean_pyJoin : ∀ l : List String,
    (∀ s ∈ l, s ≠ "" ∧ spaceClean s = true) →
    spaceClean (pyJoin " " l) = true
  | [], _ => rfl
  | [x], h => (h x (by simp)).2
  | x :: y :: rest, h => by
      have hx := h x (by simp)
      have hj : spaceClean (pyJoin " " (y :: rest)) = true :=
        spaceClean_pyJoin (y :: rest) (fun s hs => h s (by simp [hs]))
      have hjne : pyJoin " " (y :: rest) ≠ "" :=
        pyJoin_ne_empty (fun s hs => (h s (by simp [hs])).1) (by simp)
      show spaceClean (x ++ " " ++ pyJoin " " (y :: rest)) = true
      exact spaceClean_append_sep hx.2 hx.1 hj hjne

/-- The interpolated description appears whole in the `get_issue_context`
report: no character-count truncation is applied. -/
theorem get_issue_context_desc (issue : IssueView) :
    strContains (get_issue_context issue) issue.description := by
  refine ⟨"Ticket: " ++ issue.key ++ "\n" ++ "Summary: " ++ issue.summary
      ++ "\n" ++ "Status: " ++ issue.status ++ "\n" ++ "Assignee: "
      ++ issue.assignee ++ "\n" ++ "Description: ",
    "\n" ++ "--- Recent Comments ---\n"
      ++ (if ((issue.comments.drop (issue.comments.length - 5)).map
            (fun c => "- " ++ c.1 ++ ": " ++ c.2)) ≠ []
          then pyJoin "\n" ((issue.comments.drop
            (issue.comments.length - 5)).map
            (fun c => "- " ++ c.1 ++ ": " ++ c.2))
          else "No comments."), ?_⟩
  simp only [get_issue_context]
  simp [String.append_assoc]

/-- The success-path report, given the shapes of the relevant fields. -/
theorem reportOfData_eq {ticket_key : String} {ffs cfs : List (String × Json)}
    {cl : List Json} {dtxt : String} {entries : List (String × String)}
    {seen : List String}
    (hdesc : parse_adf_text ((jsonGet ffs "description").getD .null)
      = some dtxt)
    (hcf : (jsonGet ffs "comment").getD (.obj []) = .obj cfs)
    (hcl : (jsonGet cfs "comments").getD (.arr []) = .arr cl)
    (hloop : commentsLoop cl [] [] = some (entries, seen)) :
    reportOfData ticket_key (.obj [("fields", .obj ffs)])
      = some (reportText ticket_key
          ((jsonGet ffs "summary").getD (.str "No Summary"))
          (if dtxt ≠ "" then dtxt else "No Description")
          (discussionOf entries)) := by
  have h0 : reportOfData ticket_key (.obj [("fields", .obj ffs)])
      = reportOfFields ticket_key ffs := rfl
  have h1 : reportOfFields ticket_key ffs
      = reportFromComments ticket_key
          ((jsonGet ffs "summary").getD (.str "No Summary"))
          (if dtxt ≠ "" then dtxt else "No Description")
          ((jsonGet ffs "comment").getD (.obj [])) := by
    rw [reportOfFields, hdesc]
  have h2 : reportFromComments ticket_key
      ((jsonGet ffs "summary").getD (.str "No Summary"))
      (if dtxt ≠ "" then dtxt else "No Description")
      (Json.obj cfs)
      = (match commentsDataIter ((jsonGet cfs "comments").getD (.arr [])) with
         | none => none
         | some comments_data =>
            match commentsLoop comments_data [] [] with
            | none => none
            | some (entries, _) =>
                some (reportText ticket_key
                  ((jsonGet ffs "summary").getD (.str "No Summary"))
                  (if dtxt ≠ "" then dtxt else "No Description")
                  (discussionOf entries))) := rfl
  rw [h0, h1, hcf, h2, hcl]
  rw [show commentsDataIter (Json.arr cl) = some cl from rfl]
  simp only [hloop]

/-- A truthy scalar (non-dict, non-list) node contributes no text: the
extractor returns the empty string on it. -/
theorem parse_nonContainer : ∀ (v : Json), isContainer v = false →
    parse_adf_text v = some ""
  | .null, _ => rfl
  | .bool b, _ => by
      have h0 : parse_adf_text (Json.bool b)
          = if (!pyTruthy (Json.bool b)) = true then some "" else some "" := rfl
      rw [h0, ite_self]
  | .num n, _ => by
      have h0 : parse_adf_text (Json.num n)
          = if (!pyTruthy (Json.num n)) = true then some "" else some "" := rfl
      rw [h0, ite_self]
  | .str s, _ => by
      have h0 : parse_adf_text (Json.str s)
          = if (!pyTruthy (Json.str s)) = true then some "" else some "" := rfl
      rw [h0, ite_self]
  | .arr _, h => by simp [isContainer] at h
  | .obj _, h => by simp [isContainer] at h

/-- A falsy node extracts to the empty string. -/
theorem parse_falsy : ∀ {v : Json}, pyTruthy v = false →
    parse_adf_text v = some ""
  | .null, _ => rfl
  | .bool b, _ => parse_nonContainer (.bool b) rfl
  | .num n, _ => parse_nonContainer (.num n) rfl
  | .str s, _ => parse_nonContainer (.str s) rfl
  | .arr items, h => by
      have h0 : items = [] := by simpa [pyTruthy] using h
      subst h0
      rfl
  | .obj fields, h => by
      have h0 : fields = [] := by simpa [pyTruthy] using h
      subst h0
      rfl

theorem details_unfold (ticket_key u exnMsg : String)
    (fetch : Nat → FetchOutcome) :
    get_jira_ticket_details ticket_key (some u) fetch exnMsg
      = (if u = "" then "❌ Error: JIRA_URL not set."
         else match fetch 0 with
           | .exn msg => "❌ Exception reading Jira: " ++ msg
           | .resp r =>
               if r.status ≠ 200 then
                 "❌ Error fetching ticket " ++ ticket_key ++ ": "
                   ++ toString r.status
               else match reportOfData ticket_key r.body with
                 | some s => s
                 | none => "❌ Exception reading Jira: " ++ exnMsg) := rfl

/-- A non-200 response yields exactly the fetch-error message. -/
theorem details_httpError {ticket_key u exnMsg : String}
    {fetch : Nat → FetchOutcome} {r : HttpResp}
    (hu : u ≠ "") (hf : fetch 0 = .resp r) (hst : r.status ≠ 200) :
    get_jira_ticket_details ticket_key (some u) fetch exnMsg
      = "❌ Error fetching ticket " ++ ticket_key ++ ": "
        ++ toString r.status := by
  rw [details_unfold, if_neg hu]
  simp only [hf]
  rw [if_pos hst]

/-- A 200 response yields the report of the decoded body (or the caught
exception message). -/
theorem details_success {ticket_key u exnMsg : String}
    {fetch : Nat → FetchOutcome} {body : Json}
    (hu : u ≠ "") (hf : fetch 0 = .resp ⟨200, body⟩) :
    get_jira_ticket_details ticket_key (some u) fetch exnMsg
      = (match reportOfData ticket_key body with
         | some s => s
         | none => "❌ Exception reading Jira: " ++ exnMsg) := by
  rw [details_unfold, if_neg hu]
  simp only [hf]
  rw [if_neg (by simp)]

/-- On the success path the extracted description text appears whole in
the report: no character-count truncation is applied by this variant
either. -/
theorem details_desc_contains {ticket_key u exnMsg dtxt : String}
    {fetch : Nat → FetchOutcome} {ffs cfs : List (String × Json)}
    {cl : List Json} {entries : List (String × String)} {seen : List String}
    (hu : u ≠ "")
    (hf : fetch 0 = .resp ⟨200, .obj [("fields", .obj ffs)]⟩)
    (hdesc : parse_adf_text ((jsonGet ffs "description").getD .null)
      = some dtxt)
    (hdne : dtxt ≠ "")
    (hcf : (jsonGet ffs "comment").getD (.obj []) = .obj cfs)
    (hcl : (jsonGet cfs "comments").getD (.arr []) = .arr cl)
    (hloop : commentsLoop cl [] [] = some (entries, seen)) :
    strContains (get_jira_ticket_details ticket_key (some u) fetch exnMsg)
      dtxt := by
  rw [details_success hu hf]
  rw [reportOfData_eq hdesc hcf hcl hloop]
  refine ⟨"**Ticket:** " ++ ticket_key ++ "\n" ++ "**Summary:** "
      ++ pyStr ((jsonGet ffs "summary").getD (.str "No Summary")) ++ "\n"
      ++ "**Description:** ",
    "\n\n" ++ "**Discussion/Comments:**\n" ++ discussionOf entries, ?_⟩
  show reportText ticket_key ((jsonGet ffs "summary").getD (.str "No Summary"))
      (if dtxt ≠ "" then dtxt else "No Description") (discussionOf entries) = _
  rw [if_pos hdne, reportText]
  simp [String.append_assoc]

/-- C1: on every structured-node tree (text leaves carry string `text`
fields) the extractor returns the single-space join, in document order,
of the `text` field of every node tagged `type == "text"`, recursing
through every dict or list value of every node and skipping empty
fragments; the concrete Hello/World document yields `"Hello World"`; a
null/falsy input yields the empty string. -/
theorem C1_extract_text_spec (t : Json) (h : adfWF t = true) :
    parse_adf_text t
      = some (pyJoin " " ((adfTexts t).filter (fun s => s != "")))
    ∧ parse_adf_text (.obj [("type", .str "doc"), ("content", .arr
        [.obj [("type", .str "paragraph"), ("content", .arr
          [.obj [("type", .str "text"), ("text", .str "Hello")],
           .obj [("type", .str "text"), ("text", .str "World")]])]])])
      = some "Hello World"
    ∧ (∀ v : Json, pyTruthy v = false → parse_adf_text v = some "") := by
  refine ⟨?_, by decide, fun v hv => parse_falsy hv⟩
  rw [parse_flatten t h, pyJoin_filter_eq_sfold]

theorem C1_witness :
    adfWF (.obj [("type", .str "text"), ("text", .str "hi")]) = true
    ∧ parse_adf_text (.obj [("type", .str "text"), ("text", .str "hi")])
        = some (pyJoin " " ((adfTexts (.obj [("type", .str "text"),
            ("text", .str "hi")])).filter (fun s => s != ""))) :=
  ⟨by decide, (C1_extract_text_spec _ (by decide)).1⟩

/-- C2: on well-formed comment entries the deduplicating filter computes
exactly the claim-side first-occurrence dedup of the per-entry
`(author, stripped text)` pairs (preserving input order, dropping empty
texts, attributing each kept entry to its own author with the `"Unknown"`
default); hence the output is no longer than the input, its texts are
pairwise distinct and nonempty, and it is an order-preserving sublist of
the entry views; the concrete A/B/C/D scenario yields
`[(A, "fix applied"), (D, "looks good")]`. -/
theorem C2_dedup_correct (cs : List Json) (h : cs.all commentWF = true) :
    processComments cs = some (dedupSpec (cs.map entryPair) [])
    ∧ (dedupSpec (cs.map entryPair) []).length ≤ cs.length
    ∧ ((dedupSpec (cs.map entryPair) []).map Prod.snd).Nodup
    ∧ (∀ p ∈ dedupSpec (cs.map entryPair) [], p.2 ≠ "")
    ∧ (dedupSpec (cs.map entryPair) []).Sublist (cs.map entryPair)
    ∧ entryPair (.obj [("author", .obj [("displayName", .str "A")]),
        ("body", .obj [("type", .str "text"), ("text", .str "fix applied")])])
      = ("A", "fix applied")
    ∧ entryPair (.obj [("body", .obj [("type", .str "text"),
        ("text", .str "hi")])]) = ("Unknown", "hi")
    ∧ processComments
        [.obj [("author", .obj [("displayName", .str "A")]),
           ("body", .obj [("type", .str "text"), ("text", .str "fix applied")])],
         .obj [("author", .obj [("displayName", .str "B")]),
           ("body", .obj [("type", .str "text"), ("text", .str "fix applied")])],
         .obj [("author", .obj [("displayName", .str "C")]),
           ("body", .obj [("type", .str "text"), ("text", .str "")])],
         .obj [("author", .obj [("displayName", .str "D")]),
           ("body", .obj [("type", .str "text"), ("text", .str "looks good")])]]
      = some [("A", "fix applied"), ("D", "looks good")] := by
  refine ⟨processComments_eq h, ?_,
    dedupSpec_nodup _ _, fun p hp => (dedupSpec_mem _ _ p hp).1,
    dedupSpec_sublist _ _, by decide, by decide, by decide⟩
  have hlen := dedupSpec_length (cs.map entryPair) []
  simpa using hlen

theorem C2_witness :
    ([.obj [("author", .obj [("displayName", .str "A")]),
        ("body", .obj [("type", .str "text"), ("text", .str "x")])]]
      : List Json).all commentWF = true
    ∧ processComments [.obj [("author", .obj [("displayName", .str "A")]),
        ("body", .obj [("type", .str "text"), ("text", .str "x")])]]
      = some (dedupSpec (([.obj [("author", .obj [("displayName", .str "A")]),
          ("body", .obj [("type", .str "text"), ("text", .str "x")])]]
          : List Json).map entryPair) []) :=
  ⟨by decide, (C2_dedup_correct _ (by decide)).1⟩

/-- C3 counterexample: the extractor is not total on arbitrary malformed
input — a node tagged `type == "text"` whose `text` field is the number
`1` makes `" ".join` raise `TypeError` in the source, modelled as `none`
here. -/
theorem C3_counterexample :
    parse_adf_text (.obj [("type", .str "text"), ("text", .num 1)])
      = none := by decide

/-- C3 amended: extraction and the deduplication pass never raise on
inputs whose text-tagged nodes carry an absent-or-string `text` field
(resp. whose comment entries are well-formed dicts); on such inputs both
are total, and uninterpretable fields contribute only empty strings. -/
theorem C3_total_on_wf (t : Json) (cs : List Json) (h1 : adfWF t = true)
    (h2 : cs.all commentWF = true) :
    (parse_adf_text t).isSome = true
      ∧ (processComments cs).isSome = true := by
  constructor
  · rw [parse_flatten t h1]
    rfl
  · rw [processComments_eq h2]
    rfl

theorem C3_witness :
    adfWF (.obj [("type", .str "text"), ("text", .str "hi")]) = true
    ∧ ([] : List Json).all commentWF = true
    ∧ ((parse_adf_text (.obj [("type", .str "text"),
          ("text", .str "hi")])).isSome = true
        ∧ (processComments ([] : List Json)).isSome = true) :=
  ⟨by decide, by decide, C3_total_on_wf _ _ (by decide) (by decide)⟩

/-- C4: the extractor terminates on every finite tree (it is a total
function of the tree), and, because empty fragments are filtered out
before the single-space join, the join introduces no double-space run:
when every text leaf is itself free of leading/trailing spaces and
double-space runs, so is the result. -/
theorem C4_no_double_space (t : Json) (h : adfWF t = true)
    (hclean : ∀ s ∈ adfTexts t, s ≠ "" → spaceClean s = true) :
    ∃ r, parse_adf_text t = some r ∧ noDS r.data = true := by
  refine ⟨pyJoin " " ((adfTexts t).filter (fun s => s != "")), ?_, ?_⟩
  · rw [parse_flatten t h, pyJoin_filter_eq_sfold]
  · have hc : ∀ s ∈ (adfTexts t).filter (fun s => s != ""),
        s ≠ "" ∧ spaceClean s = true := by
      intro s hs
      have hm := List.mem_filter.mp hs
      have hne : s ≠ "" := by simpa using hm.2
      exact ⟨hne, hclean s hm.1 hne⟩
    exact (spaceClean_parts (spaceClean_pyJoin _ hc)).2.2

theorem C4_witness :
    adfWF (.obj [("type", .str "doc"), ("content", .arr
      [.obj [("type", .str "text"), ("text", .str "Hello")],
       .obj [("type", .str "text"), ("text", .str "World")]])]) = true
    ∧ (∀ s ∈ adfTexts (.obj [("type", .str "doc"), ("content", .arr
        [.obj [("type", .str "text"), ("text", .str "Hello")],
         .obj [("type", .str "text"), ("text", .str "World")]])]),
        s ≠ "" → spaceClean s = true)
    ∧ ∃ r, parse_adf_text (.obj [("type", .str "doc"), ("content", .arr
        [.obj [("type", .str "text"), ("text", .str "Hello")],
         .obj [("type", .str "text"), ("text", .str "World")]])]) = some r
        ∧ noDS r.data = true :=
  ⟨by decide, by decide, C4_no_double_space _ (by decide) (by decide)⟩

/-- C5: when the fetch returns a non-success status (e.g. 404 NotFound)
the tool returns exactly the fetch-error string, which names the
requested ticket key and the status; no report (no partial ticket
context) is produced; and the output depends only on the single fetch
performed — the fetch is never retried. -/
theorem C5_fetch_error (ticket_key u exnMsg : String)
    (fetch fetch' : Nat → FetchOutcome) (r : HttpResp)
    (hu : u ≠ "") (hf : fetch 0 = .resp r) (hst : r.status ≠ 200) :
    get_jira_ticket_details ticket_key (some u) fetch exnMsg
      = "❌ Error fetching ticket " ++ ticket_key ++ ": " ++ toString r.status
    ∧ strContains (get_jira_ticket_details ticket_key (some u) fetch exnMsg)
        ticket_key
    ∧ (fetch 0 = fetch' 0 →
        get_jira_ticket_details ticket_key (some u) fetch exnMsg
          = get_jira_ticket_details ticket_key (some u) fetch' exnMsg) := by
  refine ⟨details_httpError hu hf hst, ?_, ?_⟩
  · rw [details_httpError hu hf hst]
    exact ⟨"❌ Error fetching ticket ", ": " ++ toString r.status, by
      simp [String.append_assoc]⟩
  · intro heq
    rw [details_unfold, details_unfold, heq]

theorem C5_witness :
    ("https://jira" : String) ≠ ""
    ∧ (fun _ : Nat => FetchOutcome.resp ⟨404, .null⟩) 0
        = FetchOutcome.resp ⟨404, .null⟩
    ∧ (404 : Nat) ≠ 200
    ∧ get_jira_ticket_details "ABC-1" (some "https://jira")
        (fun _ => .resp ⟨404, .null⟩) ""
      = "❌ Error fetching ticket " ++ "ABC-1" ++ ": " ++ toString (404 : Nat) :=
  ⟨by decide, rfl, by decide,
   (C5_fetch_error "ABC-1" "https://jira" "" (fun _ => .resp ⟨404, .null⟩)
     (fun _ => .resp ⟨404, .null⟩) ⟨404, .null⟩ (by decide) rfl
     (by decide)).1⟩

/-- C6: the deduplication pass is idempotent — re-feeding its output (as
entries with their extracted texts as plain text-node bodies and their
authors as display names) yields the same output. -/
theorem C6_dedup_idempotent (cs : List Json) (out : List (String × String))
    (h : processComments cs = some out) :
    processComments (out.map toEntry) = some out :=
  processComments_rerun h

theorem C6_witness :
    processComments
        [.obj [("author", .obj [("displayName", .str "A")]),
           ("body", .obj [("type", .str "text"), ("text", .str "fix applied")])],
         .obj [("author", .obj [("displayName", .str "B")]),
           ("body", .obj [("type", .str "text"), ("text", .str "fix applied")])],
         .obj [("author", .obj [("displayName", .str "D")]),
           ("body", .obj [("type", .str "text"), ("text", .str "looks good")])]]
      = some [("A", "fix applied"), ("D", "looks good")]
    ∧ processComments
        (([("A", "fix applied"), ("D", "looks good")]
          : List (String × String)).map toEntry)
      = some [("A", "fix applied"), ("D", "looks good")] :=
  ⟨by decide,
   C6_dedup_idempotent
     [.obj [("author", .obj [("displayName", .str "A")]),
        ("body", .obj [("type", .str "text"), ("text", .str "fix applied")])],
      .obj [("author", .obj [("displayName", .str "B")]),
        ("body", .obj [("type", .str "text"), ("text", .str "fix applied")])],
      .obj [("author", .obj [("displayName", .str "D")]),
        ("body", .obj [("type", .str "text"), ("text", .str "looks good")])]]
     [("A", "fix applied"), ("D", "looks good")] (by decide)⟩

/-- C7: on a successful fetch, an empty-extracting description renders as
`"No Description"` and a comment list in which nothing survives filtering
renders as `"No comments found."` — the sections are stated, not omitted;
on fetch failure the message names the ticket key and the status. -/
theorem C7_report_defaults (ticket_key u exnMsg : String)
    (fetch : Nat → FetchOutcome) (ffs cfs : List (String × Json))
    (cl : List Json) (seen : List String)
    (hu : u ≠ "")
    (hf : fetch 0 = .resp ⟨200, .obj [("fields", .obj ffs)]⟩)
    (hdesc : parse_adf_text ((jsonGet ffs "description").getD .null)
      = some "")
    (hcf : (jsonGet ffs "comment").getD (.obj []) = .obj cfs)
    (hcl : (jsonGet cfs "comments").getD (.arr []) = .arr cl)
    (hdrop : commentsLoop cl [] [] = some ([], seen)) :
    get_jira_ticket_details ticket_key (some u) fetch exnMsg
      = "**Ticket:** " ++ ticket_key ++ "\n"
        ++ "**Summary:** "
        ++ pyStr ((jsonGet ffs "summary").getD (.str "No Summary")) ++ "\n"
        ++ "**Description:** " ++ "No Description" ++ "\n\n"
        ++ "**Discussion/Comments:**\n" ++ "No comments found."
    ∧ (∀ (st : Nat) (b : Json) (g : Nat → FetchOutcome), st ≠ 200 →
        g 0 = .resp ⟨st, b⟩ →
        get_jira_ticket_details ticket_key (some u) g exnMsg
          = "❌ Error fetching ticket " ++ ticket_key ++ ": " ++ toString st) := by
  constructor
  · rw [details_success hu hf, reportOfData_eq hdesc hcf hcl hdrop]
    show reportText ticket_key
        ((jsonGet ffs "summary").getD (.str "No Summary"))
        (if ("" : String) ≠ "" then "" else "No Description")
        (discussionOf []) = _
    rw [if_neg (by simp), reportText]
    rfl
  · intro st b g hst hg
    exact details_httpError hu hg hst

theorem C7_witness :
    ("x" : String) ≠ ""
    ∧ (fun _ : Nat => FetchOutcome.resp ⟨200, .obj [("fields", .obj [])]⟩) 0
        = FetchOutcome.resp ⟨200, .obj [("fields", .obj [])]⟩
    ∧ parse_adf_text ((jsonGet ([] : List (String × Json))
        "description").getD .null) = some ""
    ∧ commentsLoop [] [] [] = some ([], [])
    ∧ get_jira_ticket_details "ABC-1" (some "x")
        (fun _ => .resp ⟨200, .obj [("fields", .obj [])]⟩) ""
      = "**Ticket:** " ++ "ABC-1" ++ "\n"
        ++ "**Summary:** "
        ++ pyStr ((jsonGet ([] : List (String × Json))
            "summary").getD (.str "No Summary")) ++ "\n"
        ++ "**Description:** " ++ "No Description" ++ "\n\n"
        ++ "**Discussion/Comments:**\n" ++ "No comments found." :=
  ⟨by decide, rfl, rfl, rfl,
   (C7_report_defaults "ABC-1" "x" ""
     (fun _ => .resp ⟨200, .obj [("fields", .obj [])]⟩) [] [] [] []
     (by decide) rfl rfl rfl rfl rfl).1⟩

/-- C8: extraction and deduplication are pure and deterministic — equal
inputs give equal outputs — and no state crosses invocations: in a
sequence of calls each call's output is exactly the output of the
function on its own input, unaffected by what earlier calls processed
(the `seen` set is created fresh inside every invocation). -/
theorem C8_pure_deterministic :
    (∀ t u : Json, t = u → parse_adf_text t = parse_adf_text u)
    ∧ (∀ cs ds : List Json, cs = ds →
        processComments cs = processComments ds)
    ∧ (∀ (pre : List (List Json)) (cs : List Json) (post : List (List Json)),
        runSequential (pre ++ cs :: post)
          = runSequential pre ++ processComments cs :: runSequential post) := by
  refine ⟨fun t u h => by rw [h], fun cs ds h => by rw [h], ?_⟩
  intro pre cs post
  simp [runSequential]

theorem C8_witness :
    Json.null = Json.null
    ∧ parse_adf_text Json.null = parse_adf_text Json.null
    ∧ runSequential ([[Json.null]] ++ [Json.str "x"] :: [])
        = runSequential [[Json.null]]
          ++ processComments [Json.str "x"] :: runSequential [] :=
  ⟨rfl, C8_pure_deterministic.1 Json.null Json.null rfl,
   C8_pure_deterministic.2.2 [[Json.null]] [Json.str "x"] []⟩

/-- C9 counterexample: no fixed 200- or 300-character truncation of
descriptions exists in either cited ticket-reading variant — a
400-character description passes through both reports uncut. -/
theorem C9_counterexample :
    bigDesc.length = 400
    ∧ strContains
        (get_issue_context ⟨"MM-1", "Sum", "Open", "Dev", bigDesc, []⟩)
        bigDesc
    ∧ strContains (get_jira_ticket_details "MM-1" (some "https://jira")
        (fun _ => .resp ⟨200, .obj [("fields", .obj [("description",
          .obj [("type", .str "text"), ("text", .str bigDesc)])])]⟩) "")
        bigDesc := by
  have hlen : bigDesc.length = 400 := by
    rw [bigDesc, String.length_mk, List.length_replicate]
  have hne : bigDesc ≠ "" := by
    intro h0
    rw [h0] at hlen
    simp at hlen
  refine ⟨hlen, get_issue_context_desc _, ?_⟩
  exact details_desc_contains (by decide) rfl (parse_textNode bigDesc) hne
    rfl rfl rfl

/-- C9 amended: the `jira_agent` variant caps the fetched comment list to
the last five entries (`comments[-5:]`), the `agent_start` variant
applies no cap, and neither variant truncates description text at a
fixed character count — the extracted description always appears whole
in the output. -/
theorem C9_caps_no_truncation :
    (∀ issue : IssueView,
      (issue.comments.drop (issue.comments.length - 5)).length
        = min 5 issue.comments.length
      ∧ strContains (get_issue_context issue) issue.description)
    ∧ (∀ (ticket_key u exnMsg dtxt : String) (fetch : Nat → FetchOutcome)
        (ffs cfs : List (String × Json)) (cl : List Json)
        (entries : List (String × String)) (seen : List String),
        u ≠ "" → fetch 0 = .resp ⟨200, .obj [("fields", .obj ffs)]⟩ →
        parse_adf_text ((jsonGet ffs "description").getD .null) = some dtxt →
        dtxt ≠ "" →
        (jsonGet ffs "comment").getD (.obj []) = .obj cfs →
        (jsonGet cfs "comments").getD (.arr []) = .arr cl →
        commentsLoop cl [] [] = some (entries, seen) →
        strContains
          (get_jira_ticket_details ticket_key (some u) fetch exnMsg)
          dtxt) := by
  constructor
  · intro issue
    refine ⟨?_, get_issue_context_desc issue⟩
    rw [List.length_drop]
    omega
  · intro ticket_key u exnMsg dtxt fetch ffs cfs cl entries seen hu hf
      hdesc hdne hcf hcl hloop
    exact details_desc_contains hu hf hdesc hdne hcf hcl hloop

theorem C9_witness :
    ("x" : String) ≠ ""
    ∧ ("d" : String) ≠ ""
    ∧ strContains (get_jira_ticket_details "K-1" (some "x")
        (fun _ => .resp ⟨200, .obj [("fields", .obj [("description",
          .obj [("type", .str "text"), ("text", .str "d")])])]⟩) "") "d" :=
  ⟨by decide, by decide,
   C9_caps_no_truncation.2 "K-1" "x" "" "d"
     (fun _ => .resp ⟨200, .obj [("fields", .obj [("description",
       .obj [("type", .str "text"), ("text", .str "d")])])]⟩)
     [("description", .obj [("type", .str "text"), ("text", .str "d")])]
     [] [] [] [] (by decide) rfl (parse_textNode "d") (by decide)
     rfl rfl rfl⟩

/-- C10: a truthy value that is neither a dict nor a list — e.g. a
nonempty plain string, as a non-ADF description would be — extracts to
the empty string (only dict nodes tagged `type == "text"` contribute),
so a plain-string description renders as `"No Description"` in the
assembled report. -/
theorem C10_plain_scalars (s : String) (_hs : s ≠ "") :
    parse_adf_text (.str s) = some ""
    ∧ (∀ n : Int, parse_adf_text (.num n) = some "")
    ∧ (∀ b : Bool, parse_adf_text (.bool b) = some "")
    ∧ (∀ (ticket_key u exnMsg : String) (fetch : Nat → FetchOutcome)
        (ffs cfs : List (String × Json)) (cl : List Json)
        (entries : List (String × String)) (seen : List String),
        u ≠ "" → fetch 0 = .resp ⟨200, .obj [("fields", .obj ffs)]⟩ →
        jsonGet ffs "description" = some (.str s) →
        (jsonGet ffs "comment").getD (.obj []) = .obj cfs →
        (jsonGet cfs "comments").getD (.arr []) = .arr cl →
        commentsLoop cl [] [] = some (entries, seen) →
        get_jira_ticket_details ticket_key (some u) fetch exnMsg
          = reportText ticket_key
              ((jsonGet ffs "summary").getD (.str "No Summary"))
              "No Description" (discussionOf entries)) := by
  refine ⟨parse_nonContainer _ rfl, fun n => parse_nonContainer _ rfl,
    fun b => parse_nonContainer _ rfl, ?_⟩
  intro ticket_key u exnMsg fetch ffs cfs cl entries seen hu hf hdesc
    hcf hcl hloop
  have hdesc' : parse_adf_text ((jsonGet ffs "description").getD .null)
      = some "" := by
    rw [hdesc]
    exact parse_nonContainer _ rfl
  rw [details_success hu hf, reportOfData_eq hdesc' hcf hcl hloop]
  show reportText ticket_key
      ((jsonGet ffs "summary").getD (.str "No Summary"))
      (if ("" : String) ≠ "" then "" else "No Description")
      (discussionOf entries) = _
  rw [if_neg (by simp)]

theorem C10_witness :
    ("plain" : String) ≠ ""
    ∧ parse_adf_text (.str "plain") = some ""
    ∧ get_jira_ticket_details "K-1" (some "x")
        (fun _ => .resp ⟨200, .obj [("fields",
          .obj [("description", .str "plain")])]⟩) ""
      = reportText "K-1" ((jsonGet [("description", Json.str "plain")]
          "summary").getD (.str "No Summary")) "No Description"
          (discussionOf []) :=
  ⟨by decide, (C10_plain_scalars "plain" (by decide)).1,
   (C10_plain_scalars "plain" (by decide)).2.2.2 "K-1" "x" ""
     (fun _ => .resp ⟨200, .obj [("fields",
       .obj [("description", .str "plain")])]⟩)
     [("description", .str "plain")] [] [] [] []
     (by decide) rfl rfl rfl rfl rfl⟩

end MCPEnh

